import Mathlib

/-!
Verification of the offline gym subscription tracker's membership status
engine and record-store operations.

The repository has two schema revisions of the same `GymFlowDatabase` class:

* schema v1 (`database.ts`, version 1): subscription types
  monthly/quarterly/annual, member status `active`/`expired`/`expiring-soon`
  (the "expiry model");
* schema v2 (`database.ts`, version 2): subscription types
  daily/weekly/monthly, member status `active`/`due`/`overdue`, a
  `paymentStatus` flag and check-in support (the "dues model").

Pure functions of both revisions are embedded (v1 names carry a `V1`
suffix); the stateful operations (check-in, payment recording, member
deletion, bulk status refresh) are embedded for the v2 revision that the
pages use, as state transformers over an explicit `DB` record.  Wall-clock
reads (`new Date()`) become an explicit `now : Int` parameter (milliseconds
since the Unix epoch).
-/

namespace GymFlow

/-! ## Host calendar model

The source manipulates JavaScript `Date` values.  We model a `Date` as the
integer count of milliseconds since the Unix epoch, over a proleptic
Gregorian calendar with 86 400 000 ms per day (the ECMAScript time model:
no leap seconds; we work in UTC, so no DST shifts).  The field extraction
functions below decompose a day number into (year, 1-based month,
day-of-month) by successive extraction of the 400-year era, the century,
the 4-year block and the year, in the March-based (leap-day-last)
reckoning; `daysFromCivil` is the inverse, and `makeDay` is ECMAScript's
`MakeDay` (both accept out-of-range month/day arguments, which roll over,
exactly as the host calendar does). -/

def msPerDay : Int := 86400000

/-- Days since 1970-01-01 of the civil date (y, m, d), proleptic Gregorian,
    month `m` is 1-based; `d` may lie outside [1, 31] (the formula is
    linear in `d`), matching ECMAScript `MakeDay` semantics. -/
def daysFromCivil (y m d : Int) : Int :=
  let y2 := if m ≤ 2 then y - 1 else y
  let era := y2 / 400
  let yoe := y2 - era * 400
  let mp := if m > 2 then m - 3 else m + 9
  let doy := (153 * mp + 2) / 5 + d - 1
  let doe := yoe * 365 + yoe / 4 - yoe / 100 + doy
  era * 146097 + doe - 719468

/-- 400-year era of a day number (eras change on 0000-03-01, 0400-03-01, …). -/
def eraOfDay (z : Int) : Int := (z + 719468) / 146097

/-- Day within the 400-year era, in [0, 146096]. -/
def dayOfEra (z : Int) : Int := (z + 719468) % 146097

/-- Century within the era, in [0, 3]. -/
def centuryOfEra (z : Int) : Int := (4 * dayOfEra z + 3) / 146097

/-- Day within the century, in [0, 36524]. -/
def dayOfCentury (z : Int) : Int := dayOfEra z - 36524 * centuryOfEra z

/-- 4-year block within the century, in [0, 24]. -/
def quadOfCentury (z : Int) : Int := dayOfCentury z / 1461

/-- Day within the 4-year block, in [0, 1460]. -/
def dayOfQuad (z : Int) : Int := dayOfCentury z - 1461 * quadOfCentury z

/-- Year within the 4-year block, in [0, 3]. -/
def yearOfQuad (z : Int) : Int := (4 * dayOfQuad z + 3) / 1461

/-- Year of the era (March-based), in [0, 399]. -/
def yearOfEra (z : Int) : Int :=
  100 * centuryOfEra z + 4 * quadOfCentury z + yearOfQuad z

/-- Day of the March-based year, in [0, 365]. -/
def dayOfYear (z : Int) : Int := dayOfQuad z - 365 * yearOfQuad z

/-- March-based month index, in [0, 11] (0 = March, …, 11 = February). -/
def monthp (z : Int) : Int := (5 * dayOfYear z + 2) / 153

/-- Civil day of month, 1-based. -/
def dayOfMonth (z : Int) : Int := dayOfYear z - (153 * monthp z + 2) / 5 + 1

/-- Civil month, 1-based (January = 1). -/
def monthOfDay (z : Int) : Int :=
  if monthp z < 10 then monthp z + 3 else monthp z - 9

/-- Civil year (January and February belong to the year after their
    March-based year). -/
def yearOfDay (z : Int) : Int :=
  (if 10 ≤ monthp z then 1 else 0) + yearOfEra z + 400 * eraOfDay z

/-- Civil date (year, 1-based month, day of month) of a day number. -/
def civilFromDays (z : Int) : Int × Int × Int :=
  (yearOfDay z, monthOfDay z, dayOfMonth z)

/-- ECMAScript `MakeDay`: day number of year `y`, 0-based month `m` (any
    integer, rolling into adjacent years) and day-of-month `d` (any
    integer, rolling into adjacent months). -/
def makeDay (y m d : Int) : Int :=
  daysFromCivil (y + m / 12) (m % 12 + 1) d

/-- Day number (days since epoch) of a millisecond time value. -/
def dayNumber (t : Int) : Int := t / msPerDay

/-- Millisecond of the day of a time value, in [0, 86399999]. -/
def msOfDay (t : Int) : Int := t % msPerDay

/-- `Date.prototype.getFullYear` (UTC model). -/
def jsGetFullYear (t : Int) : Int := yearOfDay (dayNumber t)

/-- `Date.prototype.getMonth`, 0-based as in JavaScript. -/
def jsGetMonth (t : Int) : Int := monthOfDay (dayNumber t) - 1

/-- `Date.prototype.getDate`, the 1-based day of month. -/
def jsGetDate (t : Int) : Int := dayOfMonth (dayNumber t)

/-- `Date.prototype.setDate n`: same year/month with day-of-month `n`
    (rolling over), preserving the time of day. -/
def jsSetDate (t n : Int) : Int :=
  msPerDay * makeDay (jsGetFullYear t) (jsGetMonth t) n + msOfDay t

/-- `Date.prototype.setMonth mo`: same year/day-of-month with 0-based
    month `mo` (rolling over), preserving the time of day. -/
def jsSetMonth (t mo : Int) : Int :=
  msPerDay * makeDay (jsGetFullYear t) mo (jsGetDate t) + msOfDay t

/-- `Date.prototype.setFullYear y`: same month/day-of-month in year `y`
    (rolling over), preserving the time of day. -/
def jsSetFullYear (t y : Int) : Int :=
  msPerDay * makeDay y (jsGetMonth t) (jsGetDate t) + msOfDay t

/-- `new Date(year, month, day)` (0-based month), midnight. -/
def jsMkDate (year month day : Int) : Int := msPerDay * makeDay year month day

/-! ## Status derivation and renewal projection (both schema revisions) -/

/-- `Math.ceil(a / b)` for integer `a` and positive integer `b` (the float
    division in the source is exact enough at day granularity for this to
    be the ceiling of the rational quotient). -/
def ceilDiv (a b : Int) : Int := -(-a / b)

/-- The `daysDiff` quantity of `calculateMemberStatus` in both revisions:
    `Math.ceil((renewalDate.getTime() - now.getTime()) / (1000*3600*24))`. -/
def daysUntil (renewalDate now : Int) : Int :=
  ceilDiv (renewalDate - now) msPerDay

/-- Member status of schema v2 (dues model). -/
inductive MemberStatus
  | active
  | due
  | overdue
deriving DecidableEq

/-- Member status of schema v1 (expiry model). -/
inductive MemberStatusV1
  | active
  | expired
  | expiringSoon
deriving DecidableEq

/-- Subscription types of schema v2. -/
inductive SubscriptionType
  | daily
  | weekly
  | monthly
deriving DecidableEq

/-- Subscription types of schema v1. -/
inductive SubscriptionTypeV1
  | monthly
  | quarterly
  | annual
deriving DecidableEq

/-- `GymFlowDatabase.calculateMemberStatus` of schema v2 (dues model). -/
def calculateMemberStatus (renewalDate now : Int) : MemberStatus :=
  let daysDiff := daysUntil renewalDate now
  if daysDiff < -7 then .overdue
  else if daysDiff ≤ 0 then .due
  else .active

/-- `GymFlowDatabase.calculateMemberStatus` of schema v1 (expiry model). -/
def calculateMemberStatusV1 (renewalDate now : Int) : MemberStatusV1 :=
  let daysDiff := daysUntil renewalDate now
  if daysDiff < 0 then .expired
  else if daysDiff ≤ 7 then .expiringSoon
  else .active

/-- `GymFlowDatabase.calculateRenewalDate` of schema v2. -/
def calculateRenewalDate (startDate : Int) (subscriptionType : SubscriptionType) : Int :=
  match subscriptionType with
  | .daily => jsSetDate startDate (jsGetDate startDate + 1)
  | .weekly => jsSetDate startDate (jsGetDate startDate + 7)
  | .monthly => jsSetMonth startDate (jsGetMonth startDate + 1)

/-- `GymFlowDatabase.calculateRenewalDate` of schema v1. -/
def calculateRenewalDateV1 (startDate : Int) (subscriptionType : SubscriptionTypeV1) : Int :=
  match subscriptionType with
  | .monthly => jsSetMonth startDate (jsGetMonth startDate + 1)
  | .quarterly => jsSetMonth startDate (jsGetMonth startDate + 3)
  | .annual => jsSetFullYear startDate (jsGetFullYear startDate + 1)

/-! ## Record store model (schema v2)

The Dexie tables become association lists from auto-incremented ids to
records; `membersGet` is `db.members.get(id)` (first entry with the key).
Dates are millisecond time values. -/

inductive Gender
  | male
  | female
  | other
deriving DecidableEq

inductive PaymentMethod
  | cash
  | mpesa
  | card
  | bankTransfer
deriving DecidableEq

/-- The `paymentStatus` flag of schema v2. -/
inductive PaymentStatus
  | paid
  | incomplete
deriving DecidableEq

/-- The `Member` record of schema v2. -/
structure Member where
  fullName : String
  phone : String
  email : Option String
  gender : Gender
  startDate : Int
  subscriptionType : SubscriptionType
  subscriptionFee : Int
  renewalDate : Int
  status : MemberStatus
  paymentStatus : PaymentStatus
  lastCheckIn : Option Int
  createdAt : Int
  updatedAt : Int
deriving DecidableEq

/-- The `Payment` record of schema v2. -/
structure Payment where
  memberId : Nat
  amount : Int
  paymentMethod : PaymentMethod
  paymentDate : Int
  renewalPeriod : String
  subscriptionType : SubscriptionType
  notes : Option String
  createdAt : Int
deriving DecidableEq

/-- The `CheckIn` record of schema v2. -/
structure CheckInRec where
  memberId : Nat
  checkInDate : Int
  createdAt : Int
deriving DecidableEq

/-- The persistent state: the three record tables (settings are not needed
    by any claim) with their auto-increment counters. -/
structure DB where
  members : List (Nat × Member)
  payments : List (Nat × Payment)
  checkIns : List (Nat × CheckInRec)
  nextPaymentId : Nat
  nextCheckInId : Nat
deriving DecidableEq

/-- `db.members.get(id)`. -/
def membersGet (db : DB) (id : Nat) : Option Member :=
  (db.members.find? (fun p => p.1 == id)).map (·.2)

/-- A partial write to a member record, as passed to `db.members.update`:
    `none` means the field is absent from the modifications object. -/
structure MemberMods where
  renewalDate : Option Int
  status : Option MemberStatus
  lastCheckIn : Option Int
deriving DecidableEq

/-- Application of a modifications object to a member record, including the
    `members.hook('updating')` logic: `updatedAt` is always stamped, and
    whenever `renewalDate` is among the modifications the status is
    recomputed from it. -/
def applyMods (m : Member) (mods : MemberMods) (now : Int) : Member :=
  { m with
    renewalDate := mods.renewalDate.getD m.renewalDate
    status :=
      match mods.renewalDate with
      | some r => calculateMemberStatus r now
      | none => mods.status.getD m.status
    lastCheckIn :=
      match mods.lastCheckIn with
      | some v => some v
      | none => m.lastCheckIn
    updatedAt := now }

/-- `db.members.update(id, mods)` (no-op when the id is absent). -/
def membersUpdate (db : DB) (now : Int) (id : Nat) (mods : MemberMods) : DB :=
  { db with
    members := db.members.map
      (fun p => if p.1 == id then (p.1, applyMods p.2 mods now) else p) }

/-- `canCheckIn` from the check-in page: status must be `active` and the
    payment flag `paid`. -/
def canCheckIn (member : Member) : Bool :=
  member.status == .active && member.paymentStatus == .paid

/-- `GymFlowDatabase.checkInMember`: rejects a missing member and a member
    with an overdue subscription or an incomplete payment; otherwise adds a
    check-in record (with the `checkIns.hook('creating')` timestamp) and
    updates the member's `lastCheckIn`. -/
def checkInMember (db : DB) (now : Int) (memberId : Nat) : Except String DB :=
  match membersGet db memberId with
  | none => .error "Member not found"
  | some member =>
    if member.status = .overdue ∨ member.paymentStatus = .incomplete then
      .error "Cannot check in: Member has overdue subscription or incomplete payment"
    else
      let db1 : DB :=
        { db with
          checkIns := db.checkIns ++
            [(db.nextCheckInId,
              { memberId := memberId, checkInDate := now, createdAt := now })],
          nextCheckInId := db.nextCheckInId + 1 }
      .ok (membersUpdate db1 now memberId
        { renewalDate := none, status := none, lastCheckIn := some now })

/-- The data collected by the payment form on the payments page. -/
structure PaymentFormData where
  memberId : Nat
  amount : Int
  paymentMethod : PaymentMethod
  paymentDate : Int
  renewalPeriod : String
  notes : Option String
deriving DecidableEq

/-- The intended semantics of `onSubmit` from the payments page.  The
    staged source of that handler cannot compile: it declares
    `const member = await db.members.get(data.memberId)` twice in the same
    block scope, an ECMAScript/TypeScript redeclaration error, so the
    payment-recording operation never runs as written — the code bug
    recorded under claim C4.  The evident intent is a single member read:
    add the payment record (with the member's subscription type, falling
    back to `monthly` when the member is missing, and the
    `payments.hook('creating')` timestamp), then update the member's
    renewal date to `calculateRenewalDate(paymentDate, subscriptionType)`,
    the `members.hook('updating')` recomputing the status on that write. -/
def onSubmitIntended (db : DB) (now : Int) (data : PaymentFormData) : DB :=
  match membersGet db data.memberId with
  | some member =>
    let db1 : DB :=
      { db with
        payments := db.payments ++
          [(db.nextPaymentId,
            { memberId := data.memberId
              amount := data.amount
              paymentMethod := data.paymentMethod
              paymentDate := data.paymentDate
              renewalPeriod := data.renewalPeriod
              subscriptionType := member.subscriptionType
              notes := some (data.notes.getD "")
              createdAt := now })],
        nextPaymentId := db.nextPaymentId + 1 }
    membersUpdate db1 now data.memberId
      { renewalDate :=
          some (calculateRenewalDate data.paymentDate member.subscriptionType)
        status := none
        lastCheckIn := none }
  | none =>
    { db with
      payments := db.payments ++
        [(db.nextPaymentId,
          { memberId := data.memberId
            amount := data.amount
            paymentMethod := data.paymentMethod
            paymentDate := data.paymentDate
            renewalPeriod := data.renewalPeriod
            subscriptionType := .monthly
            notes := some (data.notes.getD "")
            createdAt := now })],
      nextPaymentId := db.nextPaymentId + 1 }

/-- `handleDeleteMember` from the members page (confirmed path): deletes
    the member row, then all payment records carrying that member id. -/
def handleDeleteMember (db : DB) (memberId : Nat) : DB :=
  { db with
    members := db.members.filter (fun p => p.1 != memberId),
    payments := db.payments.filter (fun p => p.2.memberId != memberId) }

/-- `GymFlowDatabase.getMonthlyRevenue`: sums payment amounts with
    `paymentDate` between `new Date(year, month-1, 1)` (inclusive) and
    `new Date(year, month, 0, 23, 59, 59)` (exclusive: Dexie's
    `between(lower, upper)` defaults to `includeUpper = false`). -/
def getMonthlyRevenue (db : DB) (year month : Int) : Int :=
  let startDate := jsMkDate year (month - 1) 1
  let endDate := jsMkDate year month 0 + (23 * 3600000 + 59 * 60000 + 59 * 1000)
  ((db.payments.filter
      (fun p => decide (startDate ≤ p.2.paymentDate) &&
                decide (p.2.paymentDate < endDate))).foldl
    (fun total p => total + p.2.amount) 0)

/-- `GymFlowDatabase.getAllMembers`: all members ordered by `fullName`. -/
def getAllMembers (db : DB) : List (Nat × Member) :=
  db.members.mergeSort (fun a b => decide (a.2.fullName ≤ b.2.fullName))

/-- One iteration of the `updateMemberStatuses` loop: recompute the status
    of the snapshot entry `p` and write it back only when it changed. -/
def statusStep (now : Int) (acc : DB) (p : Nat × Member) : DB :=
  let newStatus := calculateMemberStatus p.2.renewalDate now
  if p.2.status ≠ newStatus then
    membersUpdate acc now p.1
      { renewalDate := none, status := some newStatus, lastCheckIn := none }
  else acc

/-- `GymFlowDatabase.updateMemberStatuses`: re-derives every member's
    status from the wall clock and writes it back only when it changed. -/
def updateMemberStatuses (db : DB) (now : Int) : DB :=
  (getAllMembers db).foldl (statusStep now) db

/-- Specification of the per-member effect of `updateMemberStatuses`: the
    status is refreshed and `updatedAt` stamped when the stored status is
    stale, and the record is untouched (every field, `updatedAt` included)
    when it is already current. -/
def statusFix (now : Int) (m : Member) : Member :=
  if m.status = calculateMemberStatus m.renewalDate now then m
  else { m with
    status := calculateMemberStatus m.renewalDate now
    updatedAt := now }

/-! ## Concrete fixtures for counterexamples and witnesses -/

/-- 2024-01-01 00:00, the registration date of the end-to-end scenario. -/
def regDate : Int := jsMkDate 2024 0 1

/-- 2024-01-28 00:00. -/
def jan28 : Int := jsMkDate 2024 0 28

/-- 2024-02-10 00:00. -/
def feb10 : Int := jsMkDate 2024 1 10

/-- Renewal date computed at registration for a monthly subscription
    started 2024-01-01 (= 2024-02-01). -/
def renewalFeb : Int := calculateRenewalDate regDate .monthly

/-- The scenario member: registered 2024-01-01, monthly subscription,
    status derived at creation time by the `members.hook('creating')`. -/
def memberScenario : Member :=
  { fullName := "Jane Member"
    phone := "0700000000"
    email := none
    gender := .female
    startDate := regDate
    subscriptionType := .monthly
    subscriptionFee := 2000
    renewalDate := renewalFeb
    status := calculateMemberStatus renewalFeb regDate
    paymentStatus := .paid
    lastCheckIn := none
    createdAt := regDate
    updatedAt := regDate }

def dbScenario : DB :=
  { members := [(1, memberScenario)]
    payments := []
    checkIns := []
    nextPaymentId := 1
    nextCheckInId := 1 }

/-- The payment form submitted in the scenario: 2000 in cash dated
    2024-02-10. -/
def paymentForm : PaymentFormData :=
  { memberId := 1
    amount := 2000
    paymentMethod := .cash
    paymentDate := feb10
    renewalPeriod := "Feb 2024"
    notes := none }

/-- The scenario database after the renewal-date write of a payment dated
    2024-02-10: `db.members.update(id, { renewalDate })` with the
    `members.hook('updating')` recomputing the status.  This is the
    database-layer write of `database.ts` (schema v2), which compiles; the
    v2 payments page that would trigger it does not (see
    `onSubmitIntended`). -/
def dbAfterRenewalWrite : DB :=
  membersUpdate dbScenario feb10 1
    { renewalDate := some (calculateRenewalDate feb10 .monthly)
      status := none
      lastCheckIn := none }

/-- A member whose subscription is due (renewal date just passed) but whose
    payment flag is `paid`. -/
def memberDuePaid : Member :=
  { memberScenario with
    status := .due
    paymentStatus := .paid }

def dbDuePaid : DB :=
  { members := [(1, memberDuePaid)]
    payments := []
    checkIns := []
    nextPaymentId := 1
    nextCheckInId := 1 }

/-- A member eligible at the UI gate: active and fully paid. -/
def memberActivePaid : Member :=
  { memberScenario with
    status := .active
    paymentStatus := .paid }

def dbActivePaid : DB :=
  { members := [(1, memberActivePaid)]
    payments := []
    checkIns := []
    nextPaymentId := 1
    nextCheckInId := 1 }

/-- A payment timestamped 2024-01-31 23:59:59.500, i.e. inside the final
    second of January 2024. -/
def paymentLastSecond : Payment :=
  { memberId := 1
    amount := 500
    paymentMethod := .cash
    paymentDate := jsMkDate 2024 0 31 + 86399500
    renewalPeriod := "Jan 2024"
    subscriptionType := .monthly
    notes := none
    createdAt := jsMkDate 2024 0 31 }

def dbJanPayment : DB :=
  { members := []
    payments := [(1, paymentLastSecond)]
    checkIns := []
    nextPaymentId := 2
    nextCheckInId := 1 }

/-! ## Calendar model: validation on known dates and the roundtrip -/

example : daysFromCivil 1970 1 1 = 0 := by decide
example : daysFromCivil 2024 1 1 = 19723 := by decide
example : civilFromDays 19723 = (2024, 1, 1) := by decide
example : civilFromDays 0 = (1970, 1, 1) := by decide
example : civilFromDays (-1) = (1969, 12, 31) := by decide
example : daysFromCivil 2024 2 29 = 19782 := by decide
example : civilFromDays 19782 = (2024, 2, 29) := by decide
example : daysFromCivil 2000 2 29 = 11016 := by decide
example : civilFromDays 11016 = (2000, 2, 29) := by decide
example : daysFromCivil 1900 3 1 = (-25508) := by decide
example : civilFromDays (-25509) = (1900, 2, 28) := by decide
example : ceilDiv 1 2 = 1 := by decide
example : ceilDiv 4 2 = 2 := by decide
example : ceilDiv (-1) 2 = 0 := by decide
example : ceilDiv (-4) 2 = -2 := by decide

theorem dayOfEra_bounds (z : Int) : 0 ≤ dayOfEra z ∧ dayOfEra z ≤ 146096 := by
  unfold dayOfEra; omega

theorem eraOfDay_dayOfEra (z : Int) :
    146097 * eraOfDay z + dayOfEra z = z + 719468 := by
  unfold eraOfDay dayOfEra; omega

theorem centuryOfEra_bounds (z : Int) :
    0 ≤ centuryOfEra z ∧ centuryOfEra z ≤ 3 := by
  unfold centuryOfEra dayOfEra; omega

theorem dayOfCentury_bounds (z : Int) :
    0 ≤ dayOfCentury z ∧ dayOfCentury z ≤ 36524 := by
  unfold dayOfCentury centuryOfEra dayOfEra; omega

theorem quadOfCentury_bounds (z : Int) :
    0 ≤ quadOfCentury z ∧ quadOfCentury z ≤ 24 := by
  have h := dayOfCentury_bounds z
  unfold quadOfCentury; omega

theorem dayOfQuad_bounds (z : Int) :
    0 ≤ dayOfQuad z ∧ dayOfQuad z ≤ 1460 := by
  have h := dayOfCentury_bounds z
  unfold dayOfQuad quadOfCentury; omega

theorem yearOfQuad_bounds (z : Int) :
    0 ≤ yearOfQuad z ∧ yearOfQuad z ≤ 3 := by
  have h := dayOfQuad_bounds z
  unfold yearOfQuad; omega

theorem yearOfEra_bounds (z : Int) :
    0 ≤ yearOfEra z ∧ yearOfEra z ≤ 399 := by
  have h1 := centuryOfEra_bounds z
  have h2 := quadOfCentury_bounds z
  have h3 := yearOfQuad_bounds z
  unfold yearOfEra; omega

theorem dayOfYear_bounds (z : Int) :
    0 ≤ dayOfYear z ∧ dayOfYear z ≤ 365 := by
  have h := dayOfQuad_bounds z
  unfold dayOfYear yearOfQuad; omega

theorem monthp_bounds (z : Int) : 0 ≤ monthp z ∧ monthp z ≤ 11 := by
  have h := dayOfYear_bounds z
  unfold monthp; omega

theorem monthOfDay_bounds (z : Int) : 1 ≤ monthOfDay z ∧ monthOfDay z ≤ 12 := by
  have h := monthp_bounds z
  unfold monthOfDay
  split <;> omega

/-- Days before the March-based year `yearOfEra z` within its era. -/
theorem yearOfEra_days (z : Int) :
    365 * yearOfEra z + yearOfEra z / 4 - yearOfEra z / 100 + dayOfYear z
      = dayOfEra z := by
  have h1 := centuryOfEra_bounds z
  have h2 := quadOfCentury_bounds z
  have h3 := yearOfQuad_bounds z
  have h4 : 1461 * quadOfCentury z + dayOfQuad z = dayOfCentury z := by
    have := dayOfCentury_bounds z
    unfold dayOfQuad quadOfCentury; omega
  have h5 : 36524 * centuryOfEra z + dayOfCentury z = dayOfEra z := by
    unfold dayOfCentury; omega
  unfold yearOfEra dayOfYear
  omega

/-- Core roundtrip: recomposing the civil decomposition of a day number
    gives the day number back. -/
theorem daysFromCivil_civilFromDays (z : Int) :
    daysFromCivil (yearOfDay z) (monthOfDay z) (dayOfMonth z) = z := by
  have hmp := monthp_bounds z
  have hyoe := yearOfEra_bounds z
  have hdoe := dayOfEra_bounds z
  have hera := eraOfDay_dayOfEra z
  have hdays := yearOfEra_days z
  unfold daysFromCivil yearOfDay monthOfDay dayOfMonth
  by_cases h : monthp z < 10
  · simp only [h, if_true, if_pos, if_neg]
    omega
  · simp only [h, if_false]
    omega

/-- `daysFromCivil` is linear in the day argument (this is what makes
    `MakeDay` roll out-of-range days over). -/
theorem daysFromCivil_add (y m d k : Int) :
    daysFromCivil y m (d + k) = daysFromCivil y m d + k := by
  simp only [daysFromCivil]
  split_ifs <;> omega

/-- `makeDay` is linear in the day argument. -/
theorem makeDay_add (y m d k : Int) :
    makeDay y m (d + k) = makeDay y m d + k := by
  unfold makeDay
  exact daysFromCivil_add _ _ d k

/-- Recomposing a time value's year, month and day through `MakeDay`
    recovers its day number (the getters and `MakeDay` are consistent). -/
theorem makeDay_getters (t : Int) :
    makeDay (jsGetFullYear t) (jsGetMonth t) (jsGetDate t) = dayNumber t := by
  have hm := monthOfDay_bounds (dayNumber t)
  have h1 : (monthOfDay (dayNumber t) - 1) / 12 = 0 := by omega
  have h2 : (monthOfDay (dayNumber t) - 1) % 12 = monthOfDay (dayNumber t) - 1 := by
    omega
  unfold makeDay jsGetFullYear jsGetMonth jsGetDate
  rw [h1, h2, add_zero]
  have h3 : monthOfDay (dayNumber t) - 1 + 1 = monthOfDay (dayNumber t) := by omega
  rw [h3]
  exact daysFromCivil_civilFromDays (dayNumber t)

/-- `setDate(getDate() + k)` advances a time value by exactly `k` linear
    days. -/
theorem jsSetDate_add (t k : Int) :
    jsSetDate t (jsGetDate t + k) = t + k * msPerDay := by
  have h1 : makeDay (jsGetFullYear t) (jsGetMonth t) (jsGetDate t + k)
      = makeDay (jsGetFullYear t) (jsGetMonth t) (jsGetDate t) + k :=
    makeDay_add _ _ _ k
  have h2 := makeDay_getters t
  unfold jsSetDate
  rw [h1, h2]
  unfold dayNumber msOfDay msPerDay
  omega

/-! ## Claims about the status derivation -/

/-- Claim C1: in the dues model (schema v2), with
    `daysUntil = ceil((renewalDate - now) / 1 day)`, the derived status is
    `overdue` iff `daysUntil < -7`, `due` iff `-7 ≤ daysUntil ≤ 0` (so both
    boundary values map to `due`), and `active` iff `daysUntil > 0`. -/
theorem claim1_dues_status_buckets (r n : Int) :
    (calculateMemberStatus r n = .overdue ↔ daysUntil r n < -7) ∧
    (calculateMemberStatus r n = .due ↔ -7 ≤ daysUntil r n ∧ daysUntil r n ≤ 0) ∧
    (calculateMemberStatus r n = .active ↔ 0 < daysUntil r n) := by
  simp only [calculateMemberStatus]
  split_ifs with h1 h2 <;>
    refine ⟨?_, ?_, ?_⟩ <;> (simp_all; try omega)

/-- Claim C7: in the expiry model (schema v1), with
    `daysUntil = ceil((renewalDate - now) / 1 day)`, the derived status is
    `expired` iff `daysUntil < 0`, `expiring-soon` iff `0 ≤ daysUntil ≤ 7`,
    and `active` iff `daysUntil > 7`; the three buckets partition the
    integers with no gap or overlap. -/
theorem claim7_expiry_status_buckets (r n : Int) :
    (calculateMemberStatusV1 r n = .expired ↔ daysUntil r n < 0) ∧
    (calculateMemberStatusV1 r n = .expiringSoon ↔
      0 ≤ daysUntil r n ∧ daysUntil r n ≤ 7) ∧
    (calculateMemberStatusV1 r n = .active ↔ 7 < daysUntil r n) := by
  simp only [calculateMemberStatusV1]
  split_ifs with h1 h2 <;>
    refine ⟨?_, ?_, ?_⟩ <;> (simp_all; try omega)

/-! ## Claims about the renewal-date projection -/

/-- Claim C5: `calculateRenewalDate` adds exactly one linear day for
    `daily` and exactly seven linear days for `weekly` (for every date,
    across month and year boundaries); `monthly` adds one calendar month,
    `quarterly` (v1) three calendar months and `annual` (v1) one calendar
    year through the host calendar's `setMonth`/`setFullYear` rollover
    rule; under that rule 2024-01-31 plus one month lands on 2024-03-02. -/
theorem claim5_renewal_projection (d : Int) :
    calculateRenewalDate d .daily = d + msPerDay ∧
    calculateRenewalDate d .weekly = d + 7 * msPerDay ∧
    calculateRenewalDate d .monthly = jsSetMonth d (jsGetMonth d + 1) ∧
    calculateRenewalDateV1 d .monthly = jsSetMonth d (jsGetMonth d + 1) ∧
    calculateRenewalDateV1 d .quarterly = jsSetMonth d (jsGetMonth d + 3) ∧
    calculateRenewalDateV1 d .annual = jsSetFullYear d (jsGetFullYear d + 1) ∧
    civilFromDays (dayNumber (calculateRenewalDate (jsMkDate 2024 0 31) .monthly))
      = (2024, 3, 2) := by
  refine ⟨?_, ?_, rfl, rfl, rfl, rfl, by decide⟩
  · show jsSetDate d (jsGetDate d + 1) = d + msPerDay
    rw [jsSetDate_add]; ring
  · show jsSetDate d (jsGetDate d + 7) = d + 7 * msPerDay
    rw [jsSetDate_add]

/-! ## The end-to-end scenario (claim C6) -/

/-- Claim C6 counterexample: for the member registered 2024-01-01 with a
    monthly subscription (renewal 2024-02-01), deriving the dues-model
    status on 2024-01-28 gives `active` (daysUntil = 4), not `due` as the
    claim states. -/
theorem claim6_counterexample :
    daysUntil renewalFeb jan28 = 4 ∧
    calculateMemberStatus renewalFeb jan28 ≠ .due ∧
    calculateMemberStatus renewalFeb jan28 = .active := by decide

/-- Claim C6 (amended): the scenario as the code actually computes it.
    Registration on 2024-01-01 with a monthly subscription yields renewal
    date 2024-02-01 (both revisions); on 2024-01-28 the status is
    `expiring-soon` under variant A but `active` under variant B (four
    days before renewal is outside the dues window); on 2024-02-10 it is
    `expired` / `overdue`.  The payment step is settled at the database
    layer (the v2 payments page cannot compile, the claim-C4 code bug):
    the renewal-date write of a payment dated 2024-02-10 —
    `db.members.update(id, { renewalDate })` with the updating hook —
    stores renewal date 2024-03-10, after which the derived status, both
    as stored by the hook and as re-derived under variant A, is
    `active`. -/
theorem claim6_scenario :
    civilFromDays (dayNumber renewalFeb) = (2024, 2, 1) ∧
    calculateRenewalDateV1 regDate .monthly = renewalFeb ∧
    calculateMemberStatusV1 renewalFeb jan28 = .expiringSoon ∧
    calculateMemberStatus renewalFeb jan28 = .active ∧
    calculateMemberStatusV1 renewalFeb feb10 = .expired ∧
    calculateMemberStatus renewalFeb feb10 = .overdue ∧
    (membersGet dbAfterRenewalWrite 1).map (fun m => m.renewalDate)
      = some (calculateRenewalDate feb10 .monthly) ∧
    civilFromDays (dayNumber (calculateRenewalDate feb10 .monthly))
      = (2024, 3, 10) ∧
    calculateMemberStatusV1 (calculateRenewalDate feb10 .monthly) feb10
      = .active ∧
    (membersGet dbAfterRenewalWrite 1).map (fun m => m.status)
      = some .active := by decide

/-! ## Keyed lookup plumbing for the record store -/

/-- A keyed in-place map touches the looked-up entry. -/
theorem find?_map_keyed (l : List (Nat × Member)) (id : Nat)
    (mods : MemberMods) (now : Int) :
    (l.map (fun p => if p.1 == id then (p.1, applyMods p.2 mods now) else p)).find?
        (fun p => p.1 == id)
      = (l.find? (fun p => p.1 == id)).map
          (fun p => (p.1, applyMods p.2 mods now)) := by
  induction l with
  | nil => rfl
  | cons p l ih =>
    by_cases h : p.1 = id
    · simp [h]
    · simp only [List.map_cons]
      rw [if_neg (by simpa using h)]
      rw [List.find?_cons_of_neg _ (by simpa using h),
        List.find?_cons_of_neg _ (by simpa using h)]
      exact ih

/-- A keyed in-place map leaves lookups of other keys unchanged. -/
theorem find?_map_keyed_ne (l : List (Nat × Member)) (id id2 : Nat)
    (h : id2 ≠ id) (mods : MemberMods) (now : Int) :
    (l.map (fun p => if p.1 == id then (p.1, applyMods p.2 mods now) else p)).find?
        (fun p => p.1 == id2)
      = l.find? (fun p => p.1 == id2) := by
  induction l with
  | nil => rfl
  | cons p l ih =>
    simp only [List.map_cons]
    by_cases hp : p.1 = id
    · rw [if_pos (by simpa using hp)]
      rw [List.find?_cons_of_neg _ (by simp; omega),
        List.find?_cons_of_neg _ (by simp; omega)]
      exact ih
    · rw [if_neg (by simpa using hp)]
      by_cases hq : p.1 = id2
      · rw [List.find?_cons_of_pos _ (by simpa using hq),
          List.find?_cons_of_pos _ (by simpa using hq)]
      · rw [List.find?_cons_of_neg _ (by simpa using hq),
          List.find?_cons_of_neg _ (by simpa using hq)]
        exact ih

/-- `members.update` through `members.get` at the updated id. -/
theorem membersGet_update_self (db : DB) (now : Int) (id : Nat) (mods : MemberMods) :
    membersGet (membersUpdate db now id mods) id
      = (membersGet db id).map (fun m => applyMods m mods now) := by
  unfold membersGet membersUpdate
  dsimp only
  rw [find?_map_keyed]
  cases db.members.find? (fun p => p.1 == id) <;> rfl

/-- `members.update` through `members.get` at any other id. -/
theorem membersGet_update_ne (db : DB) (now : Int) (id id2 : Nat)
    (mods : MemberMods) (h : id2 ≠ id) :
    membersGet (membersUpdate db now id mods) id2 = membersGet db id2 := by
  unfold membersGet membersUpdate
  dsimp only
  rw [find?_map_keyed_ne _ _ _ h]

/-! ## Claims about the check-in gate (C2, C3) -/

/-- Claim C2 counterexample: a member whose status is `due` and whose
    payment flag is `paid` fails the UI gate `canCheckIn`, yet
    `checkInMember` succeeds on them — so "`checkInMember` succeeds iff
    `canCheckIn` holds" is false at this member. -/
theorem claim2_counterexample :
    membersGet dbDuePaid 1 = some memberDuePaid ∧
    canCheckIn memberDuePaid = false ∧
    ∃ db', checkInMember dbDuePaid jan28 1 = Except.ok db' :=
  ⟨rfl, rfl, ⟨_, rfl⟩⟩

/-- Claim C2 (amended): `canCheckIn` requires status `active` and payment
    flag `paid`; the state-changing `checkInMember` enforces only the
    weaker gate "not (`overdue` or `incomplete`)", so it succeeds on
    exactly those stored members, and in particular on every member that
    passes the UI gate. -/
theorem claim2_gate (db : DB) (now : Int) (id : Nat) (member : Member)
    (hm : membersGet db id = some member) :
    ((∃ db', checkInMember db now id = Except.ok db') ↔
      ¬(member.status = .overdue ∨ member.paymentStatus = .incomplete)) ∧
    (canCheckIn member = true ↔
      member.status = .active ∧ member.paymentStatus = .paid) ∧
    (canCheckIn member = true → ∃ db', checkInMember db now id = Except.ok db') := by
  have hgate : canCheckIn member = true ↔
      member.status = .active ∧ member.paymentStatus = .paid := by
    unfold canCheckIn
    simp [Bool.and_eq_true, beq_iff_eq]
  by_cases hg : member.status = .overdue ∨ member.paymentStatus = .incomplete
  · have hred : checkInMember db now id = Except.error
        "Cannot check in: Member has overdue subscription or incomplete payment" := by
      unfold checkInMember
      rw [hm]
      dsimp only
      rw [if_pos hg]
    refine ⟨?_, hgate, ?_⟩
    · constructor
      · rintro ⟨db', hdb'⟩
        rw [hred] at hdb'
        exact absurd hdb' (by simp)
      · intro h
        exact absurd hg h
    · intro hui
      rcases hgate.mp hui with ⟨hs, hp⟩
      exfalso
      rcases hg with h | h
      · rw [hs] at h
        exact absurd h (by simp)
      · rw [hp] at h
        exact absurd h (by simp)
  · have hred : checkInMember db now id = Except.ok (membersUpdate
        { db with
          checkIns := db.checkIns ++
            [(db.nextCheckInId,
              { memberId := id, checkInDate := now, createdAt := now })],
          nextCheckInId := db.nextCheckInId + 1 }
        now id { renewalDate := none, status := none, lastCheckIn := some now }) := by
      unfold checkInMember
      rw [hm]
      dsimp only
      rw [if_neg hg]
    refine ⟨?_, hgate, ?_⟩
    · exact ⟨fun _ => hg, fun _ => ⟨_, hred⟩⟩
    · intro _
      exact ⟨_, hred⟩

theorem claim2_witness :
    membersGet dbActivePaid 1 = some memberActivePaid ∧
    (((∃ db', checkInMember dbActivePaid jan28 1 = Except.ok db') ↔
        ¬(memberActivePaid.status = .overdue ∨
          memberActivePaid.paymentStatus = .incomplete)) ∧
      (canCheckIn memberActivePaid = true ↔
        memberActivePaid.status = .active ∧
        memberActivePaid.paymentStatus = .paid) ∧
      (canCheckIn memberActivePaid = true →
        ∃ db', checkInMember dbActivePaid jan28 1 = Except.ok db')) :=
  ⟨rfl, claim2_gate dbActivePaid jan28 1 memberActivePaid rfl⟩

/-- Claim C3: `checkInMember` on a member with an overdue status or an
    incomplete payment fails with the descriptive error and no state
    change; on a member passing the eligibility gate it appends exactly
    one check-in record (timestamped `now`), sets that member's
    `lastCheckIn` to the same timestamp, and touches nothing else. -/
theorem claim3_checkin_effects (db : DB) (now : Int) (id : Nat) (member : Member)
    (hm : membersGet db id = some member) :
    (member.status = .overdue ∨ member.paymentStatus = .incomplete →
      checkInMember db now id =
        Except.error
          "Cannot check in: Member has overdue subscription or incomplete payment") ∧
    (canCheckIn member = true →
      ∃ db', checkInMember db now id = Except.ok db' ∧
        db'.checkIns = db.checkIns ++
          [(db.nextCheckInId,
            { memberId := id, checkInDate := now, createdAt := now })] ∧
        membersGet db' id =
          some { member with lastCheckIn := some now, updatedAt := now } ∧
        db'.payments = db.payments ∧
        (∀ id2, id2 ≠ id → membersGet db' id2 = membersGet db id2)) := by
  constructor
  · intro hg
    unfold checkInMember
    rw [hm]
    dsimp only
    rw [if_pos hg]
  · intro hui
    have hsp : member.status = .active ∧ member.paymentStatus = .paid := by
      unfold canCheckIn at hui
      simpa [Bool.and_eq_true, beq_iff_eq] using hui
    have hg : ¬(member.status = .overdue ∨ member.paymentStatus = .incomplete) := by
      rintro (h | h)
      · rw [hsp.1] at h
        exact absurd h (by simp)
      · rw [hsp.2] at h
        exact absurd h (by simp)
    have hrun : checkInMember db now id = Except.ok (membersUpdate
        { db with
          checkIns := db.checkIns ++
            [(db.nextCheckInId,
              { memberId := id, checkInDate := now, createdAt := now })],
          nextCheckInId := db.nextCheckInId + 1 }
        now id { renewalDate := none, status := none, lastCheckIn := some now }) := by
      unfold checkInMember
      rw [hm]
      dsimp only
      rw [if_neg hg]
    refine ⟨_, hrun, rfl, ?_, rfl, ?_⟩
    · rw [membersGet_update_self]
      have hm1 : membersGet
          { db with
            checkIns := db.checkIns ++
              [(db.nextCheckInId,
                { memberId := id, checkInDate := now, createdAt := now })],
            nextCheckInId := db.nextCheckInId + 1 } id = some member := hm
      rw [hm1]
      rfl
    · intro id2 hne
      rw [membersGet_update_ne _ _ _ _ _ hne]
      rfl

theorem claim3_witness :
    membersGet dbActivePaid 1 = some memberActivePaid ∧
    ((memberActivePaid.status = .overdue ∨
        memberActivePaid.paymentStatus = .incomplete →
      checkInMember dbActivePaid jan28 1 =
        Except.error
          "Cannot check in: Member has overdue subscription or incomplete payment") ∧
      (canCheckIn memberActivePaid = true →
        ∃ db', checkInMember dbActivePaid jan28 1 = Except.ok db' ∧
          db'.checkIns = dbActivePaid.checkIns ++
            [(dbActivePaid.nextCheckInId,
              { memberId := 1, checkInDate := jan28, createdAt := jan28 })] ∧
          membersGet db' 1 =
            some { memberActivePaid with
              lastCheckIn := some jan28, updatedAt := jan28 } ∧
          db'.payments = dbActivePaid.payments ∧
          (∀ id2, id2 ≠ 1 → membersGet db' id2 = membersGet dbActivePaid id2))) :=
  ⟨rfl, claim3_checkin_effects dbActivePaid jan28 1 memberActivePaid rfl⟩

/-! ## Claim C4: recording a payment -/

/-- Claim C4 (code bug): the staged payment-recording handler cannot run —
    its source redeclares the block-scoped `const member`, a compile
    error, so the payments page never builds and no payment can be
    recorded.  Under the evident intended semantics (`onSubmitIntended`,
    the same code with the duplicate read merged) the claim's contract
    holds: for an existing member, submitting the payment form appends
    exactly one payment record carrying the entered amount and method,
    rewrites that member's renewal date to
    `calculateRenewalDate(paymentDate, subscriptionType)` with the status
    recomputed on that write (and `updatedAt` stamped by the hook), and
    leaves every other member — and the check-in log — unchanged. -/
theorem claim4_intended_payment_effects (db : DB) (now : Int) (data : PaymentFormData)
    (member : Member) (hm : membersGet db data.memberId = some member) :
    (onSubmitIntended db now data).payments = db.payments ++
      [(db.nextPaymentId,
        { memberId := data.memberId
          amount := data.amount
          paymentMethod := data.paymentMethod
          paymentDate := data.paymentDate
          renewalPeriod := data.renewalPeriod
          subscriptionType := member.subscriptionType
          notes := some (data.notes.getD "")
          createdAt := now })] ∧
    membersGet (onSubmitIntended db now data) data.memberId =
      some { member with
        renewalDate := calculateRenewalDate data.paymentDate member.subscriptionType
        status := calculateMemberStatus
          (calculateRenewalDate data.paymentDate member.subscriptionType) now
        updatedAt := now } ∧
    (∀ id2, id2 ≠ data.memberId →
      membersGet (onSubmitIntended db now data) id2 = membersGet db id2) ∧
    (onSubmitIntended db now data).checkIns = db.checkIns := by
  have hm1 : membersGet
      { db with
        payments := db.payments ++
          [(db.nextPaymentId,
            { memberId := data.memberId
              amount := data.amount
              paymentMethod := data.paymentMethod
              paymentDate := data.paymentDate
              renewalPeriod := data.renewalPeriod
              subscriptionType := member.subscriptionType
              notes := some (data.notes.getD "")
              createdAt := now })],
        nextPaymentId := db.nextPaymentId + 1 } data.memberId = some member := hm
  have hred : onSubmitIntended db now data = membersUpdate
      { db with
        payments := db.payments ++
          [(db.nextPaymentId,
            { memberId := data.memberId
              amount := data.amount
              paymentMethod := data.paymentMethod
              paymentDate := data.paymentDate
              renewalPeriod := data.renewalPeriod
              subscriptionType := member.subscriptionType
              notes := some (data.notes.getD "")
              createdAt := now })],
        nextPaymentId := db.nextPaymentId + 1 }
      now data.memberId
      { renewalDate :=
          some (calculateRenewalDate data.paymentDate member.subscriptionType)
        status := none
        lastCheckIn := none } := by
    unfold onSubmitIntended
    rw [hm]
  rw [hred]
  refine ⟨rfl, ?_, ?_, rfl⟩
  · rw [membersGet_update_self, hm1]
    rfl
  · intro id2 hne
    rw [membersGet_update_ne _ _ _ _ _ hne]
    rfl

theorem claim4_intended_witness :
    membersGet dbScenario 1 = some memberScenario ∧
    ((onSubmitIntended dbScenario feb10 paymentForm).payments = dbScenario.payments ++
        [(dbScenario.nextPaymentId,
          { memberId := paymentForm.memberId
            amount := paymentForm.amount
            paymentMethod := paymentForm.paymentMethod
            paymentDate := paymentForm.paymentDate
            renewalPeriod := paymentForm.renewalPeriod
            subscriptionType := memberScenario.subscriptionType
            notes := some (paymentForm.notes.getD "")
            createdAt := feb10 })] ∧
      membersGet (onSubmitIntended dbScenario feb10 paymentForm) paymentForm.memberId =
        some { memberScenario with
          renewalDate :=
            calculateRenewalDate paymentForm.paymentDate memberScenario.subscriptionType
          status := calculateMemberStatus
            (calculateRenewalDate paymentForm.paymentDate
              memberScenario.subscriptionType) feb10
          updatedAt := feb10 } ∧
      (∀ id2, id2 ≠ paymentForm.memberId →
        membersGet (onSubmitIntended dbScenario feb10 paymentForm) id2 =
          membersGet dbScenario id2) ∧
      (onSubmitIntended dbScenario feb10 paymentForm).checkIns = dbScenario.checkIns) :=
  ⟨rfl, claim4_intended_payment_effects dbScenario feb10 paymentForm memberScenario rfl⟩

/-! ## Claim C8: cascade delete -/

/-- Claim C8: deleting a member removes their row from the members table
    and removes every payment record carrying their member id, so no
    orphaned payment for that member remains queryable. -/
theorem claim8_cascade_delete (db : DB) (memberId : Nat) :
    membersGet (handleDeleteMember db memberId) memberId = none ∧
    ∀ pid p, (pid, p) ∈ (handleDeleteMember db memberId).payments →
      p.memberId ≠ memberId := by
  constructor
  · unfold membersGet handleDeleteMember
    rw [List.find?_eq_none.mpr]
    · rfl
    · intro p hp
      have := (List.mem_filter.mp hp).2
      simpa using this
  · intro pid p hp
    have := (List.mem_filter.mp hp).2
    simpa using this

/-! ## Claim C9: monthly revenue -/

/-- Claim C9 counterexample: a payment timestamped 2024-01-31 23:59:59.500
    — an instant of the last day of January — is not counted by
    `getMonthlyRevenue 2024 1`, so the claimed inclusivity through the end
    of the last day fails. -/
theorem claim9_counterexample :
    civilFromDays (dayNumber paymentLastSecond.paymentDate) = (2024, 1, 31) ∧
    paymentLastSecond.amount = 500 ∧
    getMonthlyRevenue dbJanPayment 2024 1 = 0 := by decide

/-- Claim C9 (amended): `getMonthlyRevenue year month` sums the amounts of
    exactly those payments whose `paymentDate` lies in the half-open window
    from the first instant of the month up to 1000 ms before the first
    instant of the next month — the whole calendar month except the final
    second of its last day (the upper bound `23:59:59` of the last day is
    itself excluded by Dexie's upper-exclusive `between`). -/
theorem claim9_revenue_window (db : DB) (year month : Int) :
    getMonthlyRevenue db year month =
      ((db.payments.filter
          (fun p => decide (jsMkDate year (month - 1) 1 ≤ p.2.paymentDate) &&
                    decide (p.2.paymentDate < jsMkDate year month 1 - 1000))).foldl
        (fun total p => total + p.2.amount) 0) := by
  have h := makeDay_add year month 0 1
  norm_num at h
  have hend : jsMkDate year month 0 + (23 * 3600000 + 59 * 60000 + 59 * 1000)
      = jsMkDate year month 1 - 1000 := by
    unfold jsMkDate msPerDay
    omega
  unfold getMonthlyRevenue
  dsimp only
  rw [hend]

/-! ## Claim C10: bulk status refresh -/

/-- The status-refresh loop touches only the members table. -/
theorem statusStep_frame (now : Int) (acc : DB) (p : Nat × Member) :
    (statusStep now acc p).payments = acc.payments ∧
    (statusStep now acc p).checkIns = acc.checkIns ∧
    (statusStep now acc p).nextPaymentId = acc.nextPaymentId ∧
    (statusStep now acc p).nextCheckInId = acc.nextCheckInId := by
  unfold statusStep membersUpdate
  dsimp only
  split <;> exact ⟨rfl, rfl, rfl, rfl⟩

theorem foldl_statusStep_frame (now : Int) (l : List (Nat × Member)) (acc : DB) :
    (l.foldl (statusStep now) acc).payments = acc.payments ∧
    (l.foldl (statusStep now) acc).checkIns = acc.checkIns ∧
    (l.foldl (statusStep now) acc).nextPaymentId = acc.nextPaymentId ∧
    (l.foldl (statusStep now) acc).nextCheckInId = acc.nextCheckInId := by
  induction l generalizing acc with
  | nil => exact ⟨rfl, rfl, rfl, rfl⟩
  | cons p l ih =>
    simp only [List.foldl_cons]
    have h := statusStep_frame now acc p
    have h2 := ih (statusStep now acc p)
    exact ⟨h2.1.trans h.1, h2.2.1.trans h.2.1,
      h2.2.2.1.trans h.2.2.1, h2.2.2.2.trans h.2.2.2⟩

/-- One refresh step rewrites exactly the processed member's entry to its
    `statusFix`, provided the snapshot value agrees with the stored one. -/
theorem statusStep_members (now : Int) (acc : DB) (p : Nat × Member)
    (hv : ∀ v, (p.1, v) ∈ acc.members → v = p.2) :
    (statusStep now acc p).members
      = acc.members.map
          (fun q => if q.1 = p.1 then (q.1, statusFix now q.2) else q) := by
  unfold statusStep
  dsimp only
  by_cases hchg : p.2.status = calculateMemberStatus p.2.renewalDate now
  · rw [if_neg (by simpa using hchg)]
    have hid : ∀ q ∈ acc.members,
        (if q.1 = p.1 then (q.1, statusFix now q.2) else q) = q := by
      intro q hq
      by_cases hk : q.1 = p.1
      · rw [if_pos hk]
        have hin : (p.1, q.2) ∈ acc.members := by
          rw [← hk]
          exact hq
        have hq2 := hv q.2 hin
        unfold statusFix
        rw [if_pos (by rw [hq2]; exact hchg)]
      · rw [if_neg hk]
    rw [List.map_congr_left hid]
    simp
  · rw [if_pos (by simpa using hchg)]
    unfold membersUpdate
    dsimp only
    apply List.map_congr_left
    intro q hq
    by_cases hk : q.1 = p.1
    · rw [if_pos (by simpa using hk), if_pos hk]
      have hin : (p.1, q.2) ∈ acc.members := by
        rw [← hk]
        exact hq
      have hq2 := hv q.2 hin
      unfold applyMods statusFix
      rw [if_neg (by rw [hq2]; exact hchg), hq2]
      rfl
    · rw [if_neg (by simpa using hk), if_neg hk]

/-- Folding the refresh step over a keyed snapshot rewrites exactly the
    snapshot's keys to their `statusFix`. -/
theorem foldl_statusStep_members (now : Int) :
    ∀ (l : List (Nat × Member)) (acc : DB),
      (l.map Prod.fst).Nodup →
      (∀ p ∈ l, ∀ v, (p.1, v) ∈ acc.members → v = p.2) →
      (l.foldl (statusStep now) acc).members
        = acc.members.map
            (fun q => if q.1 ∈ l.map Prod.fst then (q.1, statusFix now q.2) else q) := by
  intro l
  induction l with
  | nil =>
    intro acc _ _
    simp
  | cons p l ih =>
    intro acc hnd hv
    have hnd0 := List.nodup_cons.mp
      (show (p.1 :: l.map Prod.fst).Nodup from hnd)
    have hp_notin : p.1 ∉ l.map Prod.fst := hnd0.1
    simp only [List.foldl_cons]
    have hstep : (statusStep now acc p).members
        = acc.members.map
            (fun q => if q.1 = p.1 then (q.1, statusFix now q.2) else q) :=
      statusStep_members now acc p (fun v hv' => hv p (by simp) v hv')
    have hv' : ∀ p' ∈ l, ∀ v, (p'.1, v) ∈ (statusStep now acc p).members → v = p'.2 := by
      intro p' hp' v hvin
      rw [hstep] at hvin
      rcases List.mem_map.mp hvin with ⟨q, hq, heq⟩
      by_cases hk : q.1 = p.1
      · rw [if_pos hk] at heq
        exfalso
        apply hp_notin
        have hqk : q.1 = p'.1 := by
          have h2 := congrArg Prod.fst heq
          simpa using h2
        rw [← hk, hqk]
        exact List.mem_map_of_mem Prod.fst hp'
      · rw [if_neg hk] at heq
        exact hv p' (by simp [hp']) v (heq ▸ hq)
    rw [ih (statusStep now acc p) hnd0.2 hv', hstep, List.map_map]
    apply List.map_congr_left
    intro q hq
    simp only [Function.comp]
    by_cases hk : q.1 = p.1
    · rw [if_pos hk, if_neg (by rw [hk]; exact hp_notin),
        if_pos (by simp [hk])]
    · rw [if_neg hk]
      by_cases hmem : q.1 ∈ l.map Prod.fst
      · rw [if_pos hmem, if_pos (by simp [hmem])]
      · rw [if_neg hmem, if_neg (by simp [hmem, hk])]

/-- In a table with distinct keys, a key determines its record. -/
theorem key_lookup_unique :
    ∀ (l : List (Nat × Member)), (l.map Prod.fst).Nodup →
      ∀ (k : Nat) (a b : Member), (k, a) ∈ l → (k, b) ∈ l → a = b := by
  intro l
  induction l with
  | nil =>
    intro _ k a b ha
    simp at ha
  | cons p l ih =>
    intro hnd k a b ha hb
    have hnd0 := List.nodup_cons.mp
      (show (p.1 :: l.map Prod.fst).Nodup from hnd)
    rcases List.mem_cons.mp ha with ha1 | ha2 <;>
      rcases List.mem_cons.mp hb with hb1 | hb2
    · subst ha1
      injection hb1 with h1 h2
      exact h2.symm
    · subst ha1
      exact absurd (List.mem_map_of_mem Prod.fst hb2) hnd0.1
    · subst hb1
      exact absurd (List.mem_map_of_mem Prod.fst ha2) hnd0.1
    · exact ih hnd0.2 k a b ha2 hb2

/-- The members table after `updateMemberStatuses`: every record is
    replaced by its `statusFix` (in place, keys unchanged). -/
theorem updateMemberStatuses_members (db : DB) (now : Int)
    (hnd : (db.members.map Prod.fst).Nodup) :
    (updateMemberStatuses db now).members
      = db.members.map (fun q => (q.1, statusFix now q.2)) := by
  unfold updateMemberStatuses
  have hperm : (getAllMembers db).Perm db.members := List.mergeSort_perm _ _
  have hnd' : ((getAllMembers db).map Prod.fst).Nodup :=
    ((hperm.map Prod.fst).nodup_iff).mpr hnd
  have hv : ∀ p ∈ getAllMembers db, ∀ v, (p.1, v) ∈ db.members → v = p.2 := by
    intro p hp v hvin
    exact key_lookup_unique db.members hnd p.1 v p.2 hvin (hperm.mem_iff.mp hp)
  rw [foldl_statusStep_members now (getAllMembers db) db hnd' hv]
  apply List.map_congr_left
  intro q hq
  rw [if_pos ((hperm.map Prod.fst).mem_iff.mpr (List.mem_map_of_mem Prod.fst hq))]

theorem statusFix_idem (now : Int) (m : Member) :
    statusFix now (statusFix now m) = statusFix now m := by
  unfold statusFix
  by_cases h : m.status = calculateMemberStatus m.renewalDate now
  · rw [if_pos h, if_pos h]
  · rw [if_neg h, if_pos rfl]

theorem DB_ext (a b : DB) (h1 : a.members = b.members)
    (h2 : a.payments = b.payments) (h3 : a.checkIns = b.checkIns)
    (h4 : a.nextPaymentId = b.nextPaymentId)
    (h5 : a.nextCheckInId = b.nextCheckInId) : a = b := by
  cases a
  cases b
  simp_all

/-- Claim C10: `updateMemberStatuses` leaves members whose stored status
    already equals the freshly derived one completely untouched (all
    fields, `updatedAt` included); every member is changed at most in
    `status` plus the hook-stamped `updatedAt` (the content of
    `statusFix`); the payment and check-in tables are untouched; and
    running it twice at the same instant equals running it once. -/
theorem claim10_status_refresh (db : DB) (now : Int)
    (hnd : (db.members.map Prod.fst).Nodup) :
    (∀ id m, (id, m) ∈ db.members →
        m.status = calculateMemberStatus m.renewalDate now →
        (id, m) ∈ (updateMemberStatuses db now).members) ∧
    (∀ id m, (id, m) ∈ db.members →
        (id, statusFix now m) ∈ (updateMemberStatuses db now).members) ∧
    (updateMemberStatuses db now).payments = db.payments ∧
    (updateMemberStatuses db now).checkIns = db.checkIns ∧
    updateMemberStatuses (updateMemberStatuses db now) now
      = updateMemberStatuses db now := by
  have hmem := updateMemberStatuses_members db now hnd
  have hkeys : (updateMemberStatuses db now).members.map Prod.fst
      = db.members.map Prod.fst := by
    rw [hmem, List.map_map]
    rfl
  refine ⟨?_, ?_, ?_, ?_, ?_⟩
  · intro id m hin hst
    rw [hmem]
    have hfix : statusFix now m = m := by
      unfold statusFix
      rw [if_pos hst]
    have h2 := List.mem_map_of_mem (fun q => (q.1, statusFix now q.2)) hin
    simpa [hfix] using h2
  · intro id m hin
    rw [hmem]
    exact List.mem_map_of_mem (fun q => (q.1, statusFix now q.2)) hin
  · exact (foldl_statusStep_frame now (getAllMembers db) db).1
  · exact (foldl_statusStep_frame now (getAllMembers db) db).2.1
  · have hnd2 : ((updateMemberStatuses db now).members.map Prod.fst).Nodup := by
      rw [hkeys]
      exact hnd
    have hmem2 := updateMemberStatuses_members (updateMemberStatuses db now) now hnd2
    apply DB_ext
    · rw [hmem2, hmem, List.map_map]
      apply List.map_congr_left
      intro q hq
      simp only [Function.comp]
      rw [statusFix_idem]
    · exact (foldl_statusStep_frame now
        (getAllMembers (updateMemberStatuses db now)) (updateMemberStatuses db now)).1
    · exact (foldl_statusStep_frame now
        (getAllMembers (updateMemberStatuses db now)) (updateMemberStatuses db now)).2.1
    · exact (foldl_statusStep_frame now
        (getAllMembers (updateMemberStatuses db now)) (updateMemberStatuses db now)).2.2.1
    · exact (foldl_statusStep_frame now
        (getAllMembers (updateMemberStatuses db now)) (updateMemberStatuses db now)).2.2.2

theorem claim10_witness :
    (dbActivePaid.members.map Prod.fst).Nodup ∧
    ((∀ id m, (id, m) ∈ dbActivePaid.members →
        m.status = calculateMemberStatus m.renewalDate jan28 →
        (id, m) ∈ (updateMemberStatuses dbActivePaid jan28).members) ∧
      (∀ id m, (id, m) ∈ dbActivePaid.members →
        (id, statusFix jan28 m) ∈ (updateMemberStatuses dbActivePaid jan28).members) ∧
      (updateMemberStatuses dbActivePaid jan28).payments = dbActivePaid.payments ∧
      (updateMemberStatuses dbActivePaid jan28).checkIns = dbActivePaid.checkIns ∧
      updateMemberStatuses (updateMemberStatuses dbActivePaid jan28) jan28
        = updateMemberStatuses dbActivePaid jan28) :=
  ⟨by decide, claim10_status_refresh dbActivePaid jan28 (by decide)⟩

end GymFlow
